import Mathlib

/-!
Verification development for the change-proposal pipeline of the
AgenticAi backend (backend/config.py, backend/agent.py, backend/routes.py,
backend/database.py).

Python strings are embedded as `String` (or `List Char` where character-level
parsing matters), file-system paths as lists of path segments (`List String`),
and the SQLite store as in-memory lists of records.  Byte sizes of file
contents are abstracted by character counts (all contents in scope are ASCII).
The external text-generation service is an oracle (`GenOracles`) supplied as
an explicit argument, matching the single-call, blocking interface of the
code.  A ghost `writeLog` records every successful file write so that
frame/effect properties ("never touches the filesystem", "files actually
written") can be stated; it is appended exactly at the one place where the
embedded code mutates the file system.
-/

/-! ## Character and list helpers mirroring Python string primitives -/

/-- ASCII whitespace, as stripped by Python str.strip(). -/
def pyIsSpace (c : Char) : Bool :=
  c == ' ' || c == '\t' || c == '\n' || c == '\r' || c == '\x0B' || c == '\x0C'

/-- Python str.strip(): drop leading and trailing whitespace. -/
def pyStrip (l : List Char) : List Char :=
  ((l.dropWhile pyIsSpace).reverse.dropWhile pyIsSpace).reverse

/-- Python s.split(c) for a single-character separator. -/
def splitChar (c : Char) : List Char → List (List Char)
  | [] => [[]]
  | a :: t =>
    if a == c then [] :: splitChar c t
    else
      match splitChar c t with
      | [] => [[a]]
      | h :: r => (a :: h) :: r

/-- Python s.split(c, 1): split at the first occurrence of c, if any. -/
def splitOnceChar (c : Char) : List Char → List Char × Option (List Char)
  | [] => ([], none)
  | a :: t =>
    if a == c then ([], some t)
    else
      let p := splitOnceChar c t
      (a :: p.1, p.2)

/-- Python (c in s) for a single character: character membership. -/
def hasChar (c : Char) (l : List Char) : Bool :=
  l.any (fun a => a == c)

/-- Whether sep occurs as a contiguous substring (Python sep in s). -/
def containsSub (sep : List Char) : List Char → Bool
  | [] => sep.isPrefixOf ([] : List Char)
  | c :: t => sep.isPrefixOf (c :: t) || containsSub sep t

/-- Fuel-driven scan for Python s.split(sep)[-1]: the suffix of the text
after the last (left-to-right, non-overlapping) occurrence of sep, or the
whole text if sep does not occur.  Fuel is the text length, enough because
every step consumes at least one character. -/
def afterLastSubAux (sep : List Char) : Nat → List Char → List Char
  | 0, _ => []
  | _ + 1, [] => []
  | fuel + 1, c :: t =>
    if sep.isPrefixOf (c :: t) then
      afterLastSubAux sep fuel (List.drop (sep.length - 1) t)
    else if containsSub sep t then afterLastSubAux sep fuel t
    else c :: t

/-- Python s.split(sep)[-1]. -/
def afterLastSub (sep t : List Char) : List Char :=
  afterLastSubAux sep t.length t

/-! ## Paths (backend/config.py)

A filesystem path is a list of segments below the (implicit) filesystem
root.  pathlib's Path.absolute() performs no normalization and no symlink
resolution: on the already-absolute paths built by the code
(TARGET_PROJECT_DIR / file_path) it is the identity, and any ".." segments
are kept verbatim.  The operating system, by contrast, resolves ".."
segments when a path is actually opened or stat-ed; resolveSegs models that
resolution. -/

/-- OS-level lexical resolution of "." and ".." segments (what stat/open
see); Path.absolute() in the code does NOT perform this. -/
def resolveSegs (p : List String) : List String :=
  p.foldl
    (fun acc seg =>
      if seg = "." then acc
      else if seg = ".." then acc.dropLast
      else acc ++ [seg])
    []

/-- pathlib parsing of a relative path string: split on '/', dropping empty
and "." components (PurePath normalization), keeping "..". -/
def segsOf (s : String) : List String :=
  ((splitChar '/' s.data).map (fun l => String.mk l)).filter
    (fun seg => !(seg == "") && !(seg == "."))

/-- Index of the last '.' in a file name, if any. -/
def lastDotIdx (l : List Char) : Option Nat :=
  ((List.range l.length).filter (fun i => l.get? i == some '.')).getLast?

/-- pathlib Path.suffix of a single name: the part from the last dot,
provided that dot is neither the first nor the last character. -/
def pySuffix (name : List Char) : List Char :=
  match lastDotIdx name with
  | some i => if 0 < i ∧ i + 1 < name.length then name.drop i else []
  | none => []

/-- Path.suffix of a segment path: suffix of the final component. -/
def pathSuffix (p : List String) : String :=
  String.mk (pySuffix (p.getLastD "").data)

/-- ALLOWED_EXTENSIONS from config.py. -/
def ALLOWED_EXTENSIONS : List String :=
  [".md", ".txt", ".json", ".yaml", ".yml", ".py", ".config",
   ".html", ".css", ".js", ".jsx", ".ts", ".tsx"]

/-- MAX_FILE_SIZE from config.py (100 KB). -/
def MAX_FILE_SIZE : Nat := 100 * 1024

/-! ## File system state

Files are keyed by their OS-resolved absolute segment path; lookup gives the
text content.  stat().st_size is abstracted by the content length. -/

structure FS where
  lookup : List String → Option String

def FS.existsAt (fs : FS) (p : List String) : Bool :=
  (fs.lookup p).isSome

def FS.sizeAt (fs : FS) (p : List String) : Nat :=
  ((fs.lookup p).getD "").length

def FS.contentAt (fs : FS) (p : List String) : String :=
  (fs.lookup p).getD ""

/-- Path.write_text: create or truncate the file at a resolved path. -/
def FS.writeAt (fs : FS) (p : List String) (v : String) : FS :=
  ⟨fun q => if q = p then some v else fs.lookup q⟩

/-- config.validate_target_path.  The code computes
abs_path = file_path.absolute() — the identity on the already-absolute
candidate, keeping ".." segments and following no symlinks — then checks,
in order: abs_path.relative_to(TARGET_PROJECT_DIR), a purely lexical prefix
test on the unresolved segments; abs_path.exists() and abs_path.stat(),
which consult the real (resolved) file system; the extension whitelist on
the unresolved final component; and the size ceiling. -/
def validate_target_path (fs : FS) (root : List String) (p : List String) : Bool :=
  root.isPrefixOf p
    && fs.existsAt (resolveSegs p)
    && ALLOWED_EXTENSIONS.contains (pathSuffix p)
    && decide (fs.sizeAt (resolveSegs p) ≤ MAX_FILE_SIZE)

/-- Modelled from the spec (section 4.1), for comparison with the code:
true iff the absolute, symlink/".."-resolved form of the candidate is a
strict descendant of TargetRoot, the path exists, its extension is
whitelisted and its size is within the ceiling. -/
def validate_spec (fs : FS) (root : List String) (p : List String) : Bool :=
  (root.isPrefixOf (resolveSegs p) && !(resolveSegs p == root))
    && fs.existsAt (resolveSegs p)
    && ALLOWED_EXTENSIONS.contains (pathSuffix p)
    && decide (fs.sizeAt (resolveSegs p) ≤ MAX_FILE_SIZE)

/-! ## Database records (backend/database.py)

SQLite rows become Lean structures; AUTOINCREMENT ids are modelled by an
explicit next-id counter; timestamps are not modelled (no claim mentions
them). -/

structure Ticket where
  id : Nat
  title : String
  category : String
  priority : String
  description : String
  status : String
  ai_suggestion : Option String
  ai_suggestion_status : Option String
  ai_files_analyzed : List String
deriving DecidableEq

structure Change where
  id : Nat
  ticket_id : Option Nat
  file_path : String
  original_content : String
  proposed_content : String
  change_description : String
  status : String
deriving DecidableEq

/-- A changes_history row (record_change). -/
structure HistEntry where
  project_id : Option Nat
  files_affected : List String
  change_type : String
  change_summary : String
  ai_response : String
  ticket_id : Option Nat
deriving DecidableEq

structure DB where
  tickets : List Ticket
  changes : List Change
  nextChangeId : Nat
  history : List HistEntry
  contexts : List String
deriving DecidableEq

/-- database.get_proposed_change: SELECT by id. -/
def get_proposed_change (db : DB) (change_id : Nat) : Option Change :=
  db.changes.find? (fun c => c.id == change_id)

/-- database.get_proposed_changes_for_ticket: SELECT by ticket_id ORDER BY
created_at DESC; with strictly increasing insertion timestamps this is the
reverse of insertion order. -/
def get_proposed_changes_for_ticket (db : DB) (ticket_id : Nat) : List Change :=
  (db.changes.filter (fun c => c.ticket_id == some ticket_id)).reverse

/-- database.create_proposed_change: INSERT with status defaulting to
'pending'; returns lastrowid. -/
def create_proposed_change (db : DB) (file_path original_content proposed_content
    change_description : String) (ticket_id : Option Nat) : Nat × DB :=
  (db.nextChangeId,
   { db with
      changes := db.changes ++
        [{ id := db.nextChangeId
           ticket_id := ticket_id
           file_path := file_path
           original_content := original_content
           proposed_content := proposed_content
           change_description := change_description
           status := "pending" }]
      nextChangeId := db.nextChangeId + 1 })

/-- database.update_proposed_change_status: UPDATE status (and resolved_at,
not modelled) WHERE id matches. -/
def update_proposed_change_status (db : DB) (change_id : Nat) (status : String) : DB :=
  { db with
     changes := db.changes.map
       (fun c => if c.id = change_id then { c with status := status } else c) }

/-- database.get_ticket_by_id (with ai_files_analyzed already JSON-decoded). -/
def get_ticket_by_id (db : DB) (ticket_id : Nat) : Option Ticket :=
  db.tickets.find? (fun t => t.id == ticket_id)

/-- database.update_ticket_ai_suggestion: stores the suggestion and the
analyzed files and unconditionally sets ai_suggestion_status to 'pending'. -/
def update_ticket_ai_suggestion (db : DB) (ticket_id : Nat) (suggestion : String)
    (files_analyzed : List String) : DB :=
  { db with
     tickets := db.tickets.map
       (fun t =>
         if t.id = ticket_id then
           { t with
              ai_suggestion := some suggestion
              ai_files_analyzed := files_analyzed
              ai_suggestion_status := some "pending" }
         else t) }

/-- database.update_ticket_ai_status: sets ai_suggestion_status, and when the
new status is 'accepted' additionally resolves the ticket. -/
def update_ticket_ai_status (db : DB) (ticket_id : Nat) (status : String) : DB :=
  { db with
     tickets := db.tickets.map
       (fun t =>
         if t.id = ticket_id then
           if status = "accepted" then
             { t with ai_suggestion_status := some status, status := "resolved" }
           else { t with ai_suggestion_status := some status }
         else t) }

/-- database.record_change: INSERT into changes_history. -/
def record_change (db : DB) (project_id : Option Nat) (files_affected : List String)
    (change_type change_summary ai_response : String) (ticket_id : Option Nat) : DB :=
  { db with
     history := db.history ++
       [{ project_id := project_id
          files_affected := files_affected
          change_type := change_type
          change_summary := change_summary
          ai_response := ai_response
          ticket_id := ticket_id }] }

/-- database.save_ai_context: INSERT into ai_context (only the content is
relevant to any claim). -/
def save_ai_context (db : DB) (content : String) : DB :=
  { db with contexts := db.contexts ++ [content] }

/-! ## World state and generation oracles -/

/-- Combined mutable state: the SQLite store, the target-project file tree,
the set of resolved paths at which Path.write_text would raise (permission
errors, missing parent directories, ...), and the ghost log of successful
writes (path string as passed to the write, content written). -/
structure World where
  db : DB
  fs : FS
  writeFailures : List (List String)
  writeLog : List (String × String)

/-- The external text-generation service and its callers' parsed outputs,
per request (the code performs one blocking call per use):
selectResult is the output of UIAgent.identify_relevant_files, which
returns [] when no bracketed array is found or on any exception;
genResult is the main analysis response (none = the call raised,
GenerationFailure); proposeGen is the per-file proposal call used by
propose_file_change, keyed by (file_path, instruction); chatResult is the
response used by the probe action. -/
structure GenOracles where
  selectResult : List String
  genResult : Option String
  proposeGen : String → String → Option String
  chatResult : String

/-! ## Agent file operations (backend/agent.py) -/

inductive ReadOut where
  | ok (content : String)
  | err (msg : String)
deriving DecidableEq

/-- UIAgent.read_file: joins the relative path onto TARGET_PROJECT_DIR,
runs validate_target_path, then an existence check (note: dead, because
validation already required existence), then reads. -/
def read_file (root : List String) (fs : FS) (file_path : String) : ReadOut :=
  let target := root ++ segsOf file_path
  if !(validate_target_path fs root target) then
    .err "File access denied - safety check failed"
  else if !(fs.existsAt (resolveSegs target)) then
    .err ("File not found: " ++ file_path)
  else
    .ok (fs.contentAt (resolveSegs target))

inductive ApplyOut where
  | applied (file_path : String)
  | err (msg : String)
deriving DecidableEq

/-- Whether a resolved path is one at which write_text raises. -/
def writeRaises (w : World) (p : List String) : Bool :=
  w.writeFailures.contains p

/-- UIAgent.apply_proposed_change: fetch the row; refuse with a message
naming the current status unless it is pending; re-run validate_target_path
against the current file system; write proposed_content; only then commit
the accepted status and record history.  A raising write is caught by the
enclosing try/except, so the status update never runs after a failed
write. -/
def apply_proposed_change (root : List String) (w : World) (change_id : Nat) :
    ApplyOut × World :=
  match get_proposed_change w.db change_id with
  | none => (.err "Proposed change not found", w)
  | some c =>
    if c.status ≠ "pending" then
      (.err ("Change already " ++ c.status), w)
    else
      let target := root ++ segsOf c.file_path
      if !(validate_target_path w.fs root target) then
        (.err "Safety check failed on write", w)
      else if writeRaises w (resolveSegs target) then
        (.err "write failed", w)
      else
        let fs2 := w.fs.writeAt (resolveSegs target) c.proposed_content
        let db2 := update_proposed_change_status w.db change_id "accepted"
        let db3 := record_change db2 none [c.file_path] "modify"
          c.change_description c.proposed_content c.ticket_id
        (.applied c.file_path,
         { w with
            db := db3
            fs := fs2
            writeLog := w.writeLog ++ [(c.file_path, c.proposed_content)] })

inductive RejectOut where
  | rejected
  | err (msg : String)
deriving DecidableEq

/-- UIAgent.reject_proposed_change: fetch, refuse unless pending, flip the
status to rejected; no file-system interaction. -/
def reject_proposed_change (w : World) (change_id : Nat) : RejectOut × World :=
  match get_proposed_change w.db change_id with
  | none => (.err "Proposed change not found", w)
  | some c =>
    if c.status ≠ "pending" then
      (.err ("Change already " ++ c.status), w)
    else
      (RejectOut.rejected,
       { w with db := update_proposed_change_status w.db change_id "rejected" })

inductive PropOut where
  | proposed (change_id : Nat)
  | err (msg : String)
deriving DecidableEq

/-- UIAgent.propose_file_change: read the file, ask the generation service
for the full proposed content, and store a pending row; no file write. -/
def propose_file_change (orc : GenOracles) (root : List String) (w : World)
    (file_path instruction : String) (ticket_id : Option Nat) : PropOut × World :=
  match read_file root w.fs file_path with
  | .err e => (.err e, w)
  | .ok original_content =>
    match orc.proposeGen file_path instruction with
    | none => (.err "generation failed", w)
    | some proposed_content =>
      let r := create_proposed_change w.db file_path original_content
        proposed_content instruction ticket_id
      (.proposed r.1, { w with db := r.2 })

/-! ## Directive extraction (backend/routes.py, api_ticket_ai_resolve body)

The route scans the generated response for the literal marker
FILES_TO_MODIFY:, takes the text after its last occurrence
(split(marker)[-1]), strips it, splits it into lines, and turns every line
of the shape "- <path>: <free text>" into one (path, instruction)
directive, skipping all other lines. -/

/-- The fixed literal marker opening a directive block. -/
def MARKER : List Char := ("FILES_TO_MODIFY:").data

/-- The fallback instruction used when a directive line has no text after
the colon split (dead in practice: the branch guard requires a colon). -/
def defaultInstr (title : List Char) : List Char :=
  ("Apply fix for: ").data ++ title

/-- One iteration of the directive loop: strip the line; if it starts with
"- " and contains a colon, split the rest at the first colon into a path
and an instruction, each stripped. -/
def parseLine (title line0 : List Char) : Option (List Char × List Char) :=
  let line := pyStrip line0
  if ['-', ' '].isPrefixOf line && hasChar ':' line then
    let parts := splitOnceChar ':' (line.drop 2)
    match parts.2 with
    | some rest => some (pyStrip parts.1, pyStrip rest)
    | none => some (pyStrip parts.1, defaultInstr title)
  else none

/-- The directive extraction performed by api_ticket_ai_resolve:
ai_response.split('FILES_TO_MODIFY:')[-1].strip().split('\n'), keeping the
parsed form of every matching line in source order; no marker, no
directives. -/
def extractFileDirectives (title text : List Char) : List (List Char × List Char) :=
  if containsSub MARKER text then
    (splitChar '\n' (pyStrip (afterLastSub MARKER text))).filterMap (parseLine title)
  else []

/-! ## Two-step task processing (backend/agent.py, process_task_two_step) -/

inductive TaskOut where
  | ok (files_analyzed : List String) (response : String)
  | err (msg : String)
deriving DecidableEq

/-- The file-reading loop of process_task_two_step: read each relevant
file, keeping (path, content) for the readable ones. -/
def fileContentsOf (orc : GenOracles) (root : List String) (fs : FS) :
    List (String × String) :=
  orc.selectResult.filterMap
    (fun fp =>
      match read_file root fs fp with
      | .ok c => some (fp, c)
      | .err _ => none)

/-- The files actually analyzed by a successful run of
process_task_two_step: the relevant files that could be read. -/
def analyzedFiles (orc : GenOracles) (root : List String) (fs : FS) : List String :=
  (fileContentsOf orc root fs).map (fun x => x.1)

/-- UIAgent.process_task_two_step: fetch the (state-irrelevant) blueprint
context; take the selector's relevant files, failing if none; read each
relevant file, keeping the readable ones, failing if none could be read;
run the main generation call, failing if it raises; on success record the
analysis in changes_history and ai_context and report the files actually
read together with the raw response.  All failure branches return before
any database write. -/
def process_task_two_step (orc : GenOracles) (root : List String) (w : World)
    (task : String) : TaskOut × World :=
  let relevant_files := orc.selectResult
  if relevant_files = [] then
    (.err "No relevant files found for this task", w)
  else
    let file_contents := fileContentsOf orc root w.fs
    if file_contents = [] then
      (.err "Could not read any of the relevant files", w)
    else
      match orc.genResult with
      | none => (.err "generation failed", w)
      | some response =>
        let db2 := record_change w.db none (file_contents.map (fun x => x.1))
          "analyze" task response
          none
        let db3 := save_ai_context db2 response
        (.ok (file_contents.map (fun x => x.1)) response, { w with db := db3 })

/-! ## Routes (backend/routes.py) -/

inductive ResolveOut where
  | notFound
  | err (msg : String)
  | ok (suggestion : String) (files_analyzed : List String)
       (proposed_changes : List (String × Nat))
deriving DecidableEq

/-- One iteration of the proposed-change creation loop of
api_ticket_ai_resolve: a directive whose path is among files_analyzed is
turned into a proposal (title-prefixed instruction, tied to the ticket);
successful proposals are collected, failures and out-of-scope paths are
skipped. -/
def directiveStep (orc : GenOracles) (root : List String) (ticket_id : Nat)
    (title : String) (files_analyzed : List String)
    (acc : List (String × Nat) × World) (d : List Char × List Char) :
    List (String × Nat) × World :=
  let file_path := String.mk d.1
  let instruction := String.mk d.2
  if files_analyzed.contains file_path then
    match propose_file_change orc root acc.2 file_path
      (title ++ ": " ++ instruction) (some ticket_id) with
    | (.proposed cid, w2) => (acc.1 ++ [(file_path, cid)], w2)
    | (.err _, w2) => (acc.1, w2)
  else acc

/-- The proposed-change creation loop of api_ticket_ai_resolve over all
extracted directives. -/
def createChangesForDirectives (orc : GenOracles) (root : List String)
    (ticket_id : Nat) (title : String) (files_analyzed : List String)
    (w : World) (dirs : List (List Char × List Char)) :
    List (String × Nat) × World :=
  dirs.foldl (directiveStep orc root ticket_id title files_analyzed) ([], w)

/-- routes.api_ticket_ai_resolve: 404 for a missing ticket; run the
two-step process (the ticket-derived task prompt has no further effect on
state); on error return it unchanged; on success persist the suggestion,
the analyzed files and the pending status onto the ticket, then create one
proposed change per extracted directive whose path is among the analyzed
files. -/
def api_ticket_ai_resolve (orc : GenOracles) (root : List String) (w : World)
    (ticket_id : Nat) : ResolveOut × World :=
  match get_ticket_by_id w.db ticket_id with
  | none => (.notFound, w)
  | some t =>
    match process_task_two_step orc root w t.title with
    | (.err e, w1) => (.err e, w1)
    | (.ok files_analyzed ai_response, w1) =>
      let w2 := { w1 with
        db := update_ticket_ai_suggestion w1.db ticket_id ai_response files_analyzed }
      let dirs := extractFileDirectives t.title.data ai_response.data
      let r := createChangesForDirectives orc root ticket_id t.title
        files_analyzed w2 dirs
      (.ok ai_response files_analyzed r.1, r.2)

/-- The accept loop of api_ticket_ai_action: apply every change that was
pending when the list was fetched, collecting the file paths of those
whose application reported success; failures contribute nothing and do not
stop the loop. -/
def applyAll (root : List String) : List Change → World → List String × World
  | [], w => ([], w)
  | c :: rest, w =>
    if c.status = "pending" then
      match apply_proposed_change root w c.id with
      | (.applied _, w1) =>
        let r := applyAll root rest w1
        (c.file_path :: r.1, r.2)
      | (.err _, w1) =>
        applyAll root rest w1
    else applyAll root rest w

/-- The reject loop of api_ticket_ai_action. -/
def rejectAll (w : World) : List Change → World
  | [] => w
  | c :: rest =>
    if c.status = "pending" then
      rejectAll (reject_proposed_change w c.id).2 rest
    else rejectAll w rest

inductive ActionOut where
  | invalid
  | notFound
  | acceptOk (applied_changes : List String)
  | rejectOk
  | probeOk (response : String)
  | probeErr (msg : String)
deriving DecidableEq

/-- routes.api_ticket_ai_action: validate the action name and the ticket;
accept applies all pending proposed changes of the ticket and then marks
the suggestion accepted (which also resolves the ticket), returning the
files whose application succeeded; reject rejects all pending proposed
changes and marks the suggestion rejected; probe requires a message and
issues one chat call with no state change beyond the agent-local
conversation history (not part of World). -/
def api_ticket_ai_action (orc : GenOracles) (root : List String) (w : World)
    (ticket_id : Nat) (action message : String) : ActionOut × World :=
  if action ≠ "accept" ∧ action ≠ "reject" ∧ action ≠ "probe" then
    (.invalid, w)
  else
    match get_ticket_by_id w.db ticket_id with
    | none => (.notFound, w)
    | some _ =>
      if action = "accept" then
        let pending_changes := get_proposed_changes_for_ticket w.db ticket_id
        let r := applyAll root pending_changes w
        let w2 := { r.2 with db := update_ticket_ai_status r.2.db ticket_id "accepted" }
        (.acceptOk r.1, w2)
      else if action = "reject" then
        let pending_changes := get_proposed_changes_for_ticket w.db ticket_id
        let w1 := rejectAll w pending_changes
        let w2 := { w1 with db := update_ticket_ai_status w1.db ticket_id "rejected" }
        (.rejectOk, w2)
      else
        if message = "" then (.probeErr "Message required for probe action", w)
        else (.probeOk orc.chatResult, w)

/-! ## Shapes of directive lines, and row keys -/

/-- A canonical well-formed directive line "- path: instruction". -/
def mkDirectiveLine (p i : List Char) : List Char :=
  ['-', ' '] ++ p ++ [':', ' '] ++ i

/-- A directive path as written in generated text: nonempty, and free of
whitespace and colons. -/
def wfPath (p : List Char) : Prop :=
  p ≠ [] ∧ ∀ c ∈ p, pyIsSpace c = false ∧ c ≠ ':'

/-- A directive instruction: nonempty free text on one line with no
leading or trailing whitespace (inner spaces allowed). -/
def wfInstr (i : List Char) : Prop :=
  i ≠ [] ∧ (∀ c ∈ i, c ≠ '\n')
    ∧ (∀ a, i.head? = some a → pyIsSpace a = false)
    ∧ (∀ a, i.getLast? = some a → pyIsSpace a = false)

instance (p : List Char) : Decidable (wfPath p) := by
  unfold wfPath
  infer_instance

instance (i : List Char) : Decidable (wfInstr i) := by
  unfold wfInstr
  infer_instance

/-- The identity-relevant fields of a proposed_changes row: the primary
key together with the fields read back by the accept loop.  Status
transitions preserve these. -/
def changeKey (c : Change) : Nat × String × String :=
  (c.id, c.file_path, c.proposed_content)

/-! ## Concrete instances used by counterexamples and witnesses -/

/-- TARGET_PROJECT_DIR for the concrete runs. -/
def rootC : List String := ["home", "user", "target"]

/-- A small file tree: two whitelisted files inside the target root, one
whitelisted file outside it (in the grandparent of a subdirectory). -/
def fsC : FS :=
  ⟨fun p =>
    if p = ["home", "user", "target", "readme.md"] then some "hello"
    else if p = ["home", "user", "target", "app.py"] then some "x=1"
    else if p = ["home", "user", "evil.py"] then some "print(1)"
    else none⟩

/-- A candidate path inside the target root lexically, escaping it through
".." segments: target/sub/../../evil.py resolves to home/user/evil.py. -/
def badC : List String := rootC ++ ["sub", "..", "..", "evil.py"]

def ticketC : Ticket :=
  { id := 1
    title := "T"
    category := "bug"
    priority := "medium"
    description := "d"
    status := "open"
    ai_suggestion := none
    ai_suggestion_status := none
    ai_files_analyzed := [] }

/-- Pending change on the readable readme.md. -/
def changeC : Change :=
  { id := 1
    ticket_id := some 1
    file_path := "readme.md"
    original_content := "hello"
    proposed_content := "hello world"
    change_description := "add usage"
    status := "pending" }

/-- Pending change on a file that does not exist (its guard fails). -/
def changeMissingC : Change :=
  { id := 2
    ticket_id := some 1
    file_path := "missing.md"
    original_content := ""
    proposed_content := "mm"
    change_description := "dm"
    status := "pending" }

/-- Pending change on the readable app.py. -/
def changeAppC : Change :=
  { id := 3
    ticket_id := some 1
    file_path := "app.py"
    original_content := "x=1"
    proposed_content := "x=2"
    change_description := "bump"
    status := "pending" }

def dbC : DB :=
  { tickets := [ticketC]
    changes := [changeC, changeMissingC, changeAppC]
    nextChangeId := 4
    history := []
    contexts := [] }

def wC : World :=
  { db := dbC, fs := fsC, writeFailures := [], writeLog := [] }

/-- Same world, but writes to app.py raise. -/
def wCF : World :=
  { wC with writeFailures := [["home", "user", "target", "app.py"]] }

/-- Oracle: two relevant files of which only one is readable, a response
with no directive block, per-file proposal calls failing. -/
def orc9 : GenOracles :=
  { selectResult := ["readme.md", "missing.md"]
    genResult := some "no directives here"
    proposeGen := fun _ _ => none
    chatResult := "" }

/-- Oracle: two relevant files of which only one is readable, a response
whose directive block names the readable file. -/
def orc9b : GenOracles :=
  { selectResult := ["readme.md", "missing.md"]
    genResult := some "FILES_TO_MODIFY:\n- readme.md: update docs"
    proposeGen := fun _ _ => some "new content"
    chatResult := "" }

/-- Oracle with empty file selection. -/
def orc6 : GenOracles :=
  { selectResult := []
    genResult := some "irrelevant"
    proposeGen := fun _ _ => none
    chatResult := "" }

/-- Oracle whose main generation call raises. -/
def orc6b : GenOracles :=
  { selectResult := ["readme.md"]
    genResult := none
    proposeGen := fun _ _ => none
    chatResult := "" }

/-- Oracle for concrete proposal creation. -/
def orcProp : GenOracles :=
  { selectResult := []
    genResult := none
    proposeGen := fun _ _ => some "new content"
    chatResult := "" }

/-- A generated response with a directive block listing two files, with a
non-directive line between them. -/
def respTwoC : String :=
  "Analysis.\nFILES_TO_MODIFY:\n- app.py: fix bug\nskip me\n- readme.md: update docs"

/-- A generated response without the directive marker. -/
def respNoMarkerC : String := "All good, nothing to change."

/-- A generated response whose directive block lists the same path twice
with different instructions. -/
def respDupC : String :=
  "FILES_TO_MODIFY:\n- app.py: add one\n- app.py: add two"

/-! ## Helper lemmas: Python string primitives -/

theorem dropWhile_eq_self_of_head (l : List Char)
    (h : ∀ a, l.head? = some a → pyIsSpace a = false) :
    l.dropWhile pyIsSpace = l := by
  cases l with
  | nil => rfl
  | cons a t =>
    have := h a rfl
    simp [List.dropWhile_cons, this]

theorem pyStrip_eq_self (l : List Char)
    (h1 : ∀ a, l.head? = some a → pyIsSpace a = false)
    (h2 : ∀ a, l.getLast? = some a → pyIsSpace a = false) :
    pyStrip l = l := by
  unfold pyStrip
  rw [dropWhile_eq_self_of_head l h1]
  rw [dropWhile_eq_self_of_head l.reverse]
  · exact l.reverse_reverse
  · intro a ha
    rw [List.head?_reverse] at ha
    exact h2 a ha

theorem pyStrip_cons_space (a : Char) (l : List Char) (h : pyIsSpace a = true) :
    pyStrip (a :: l) = pyStrip l := by
  unfold pyStrip
  simp [List.dropWhile_cons, h]

theorem splitChar_ne_nil (c : Char) (l : List Char) : splitChar c l ≠ [] := by
  induction l with
  | nil => simp [splitChar]
  | cons a t ih =>
    rw [splitChar]
    by_cases h : a == c
    · simp [h]
    · simp only [h]
      cases hs : splitChar c t with
      | nil => simp
      | cons x r => simp

theorem splitChar_of_not_mem (c : Char) (l : List Char)
    (h : ∀ x ∈ l, x ≠ c) : splitChar c l = [l] := by
  induction l with
  | nil => rfl
  | cons a t ih =>
    have ha : (a == c) = false := by
      simp only [beq_eq_false_iff_ne]
      exact h a (by simp)
    rw [splitChar, ha]
    simp only [Bool.false_eq_true, if_false]
    rw [ih (fun x hx => h x (by simp [hx]))]

theorem splitChar_append_cons (c : Char) (l1 l2 : List Char)
    (h : ∀ x ∈ l1, x ≠ c) :
    splitChar c (l1 ++ c :: l2) = l1 :: splitChar c l2 := by
  induction l1 with
  | nil => simp [splitChar]
  | cons a t ih =>
    have ha : (a == c) = false := by
      simp only [beq_eq_false_iff_ne]
      exact h a (by simp)
    rw [List.cons_append, splitChar, ha]
    simp only [Bool.false_eq_true, if_false]
    rw [ih (fun x hx => h x (by simp [hx]))]

theorem splitOnceChar_append (c : Char) (p r : List Char)
    (h : ∀ x ∈ p, x ≠ c) :
    splitOnceChar c (p ++ c :: r) = (p, some r) := by
  induction p with
  | nil => simp [splitOnceChar]
  | cons a t ih =>
    have ha : (a == c) = false := by
      simp only [beq_eq_false_iff_ne]
      exact h a (by simp)
    rw [List.cons_append, splitOnceChar, ha]
    simp only [Bool.false_eq_true, if_false]
    rw [ih (fun x hx => h x (by simp [hx]))]

theorem getLast?_append_right (l1 l2 : List Char) (h : l2 ≠ []) :
    (l1 ++ l2).getLast? = l2.getLast? := by
  rw [← List.head?_reverse, ← List.head?_reverse, List.reverse_append]
  cases hr : l2.reverse with
  | nil => exact absurd (List.reverse_eq_nil_iff.mp hr) h
  | cons a t => simp

theorem getLast?_mkDirectiveLine (p i : List Char) (hi : i ≠ []) :
    (mkDirectiveLine p i).getLast? = i.getLast? := by
  unfold mkDirectiveLine
  obtain ⟨a, t, rfl⟩ := List.exists_cons_of_ne_nil hi
  repeat rw [getLast?_append_right _ _ (by simp)]

theorem head?_mkDirectiveLine (p i : List Char) :
    (mkDirectiveLine p i).head? = some '-' := rfl

/-- No character of a well-formed directive line is a newline. -/
theorem noNl_mkDirectiveLine (p i : List Char)
    (hp : wfPath p) (hi : wfInstr i) :
    ∀ x ∈ mkDirectiveLine p i, x ≠ '\n' := by
  intro x hx
  have hx2 : x ∈ (['-', ' '] : List Char) ∨ x ∈ p ∨ x ∈ ([':', ' '] : List Char) ∨ x ∈ i := by
    simpa [mkDirectiveLine, List.mem_append, or_assoc] using hx
  rcases hx2 with h | h | h | h
  · intro hc; subst hc; exact absurd h (by decide)
  · intro hc
    subst hc
    have h2 := (hp.2 _ h).1
    exact absurd h2 (by decide)
  · intro hc; subst hc; exact absurd h (by decide)
  · exact hi.2.1 x h

theorem pyStrip_mkDirectiveLine (p i : List Char)
    (_hp : wfPath p) (hi : wfInstr i) :
    pyStrip (mkDirectiveLine p i) = mkDirectiveLine p i := by
  apply pyStrip_eq_self
  · intro a ha
    rw [head?_mkDirectiveLine] at ha
    cases ha
    decide
  · intro a ha
    rw [getLast?_mkDirectiveLine p i hi.1] at ha
    exact hi.2.2.2 a ha

theorem parseLine_mkDirectiveLine (title p i : List Char)
    (hp : wfPath p) (hi : wfInstr i) :
    parseLine title (mkDirectiveLine p i) = some (p, i) := by
  unfold parseLine
  rw [pyStrip_mkDirectiveLine p i hp hi]
  have hpre : (['-', ' '].isPrefixOf (mkDirectiveLine p i)) = true := by
    rw [List.isPrefixOf_iff_prefix]
    exact ⟨p ++ [':', ' '] ++ i, by simp [mkDirectiveLine]⟩
  have hcolon : hasChar ':' (mkDirectiveLine p i) = true := by
    unfold hasChar mkDirectiveLine
    simp
  have hdrop : (mkDirectiveLine p i).drop 2 = p ++ ':' :: ' ' :: i := by
    simp [mkDirectiveLine]
  have hsp : pyStrip p = p := by
    apply pyStrip_eq_self
    · intro a ha
      exact (hp.2 a (List.mem_of_mem_head? ha)).1
    · intro a ha
      exact (hp.2 a (List.mem_of_mem_getLast? ha)).1
  have hsi : pyStrip (' ' :: i) = i := by
    rw [pyStrip_cons_space ' ' i (by decide)]
    exact pyStrip_eq_self i hi.2.2.1 hi.2.2.2
  simp only [hpre, hcolon, Bool.and_self, if_true, hdrop,
    splitOnceChar_append ':' p (' ' :: i) (fun x hx => (hp.2 x hx).2), hsp, hsi]

theorem getLast?_cons_right (a : Char) (l : List Char) (h : l ≠ []) :
    (a :: l).getLast? = l.getLast? :=
  getLast?_append_right [a] l h

theorem mkDirectiveLine_ne_nil (p i : List Char) : mkDirectiveLine p i ≠ [] := by
  simp [mkDirectiveLine]

/-- Stripping and line-splitting the canonical directive block: one good
line, one non-directive line, one good line. -/
theorem lines_block3 (p1 i1 junk p2 i2 : List Char)
    (hp1 : wfPath p1) (hi1 : wfInstr i1) (hp2 : wfPath p2) (hi2 : wfInstr i2)
    (hjnl : ∀ x ∈ junk, x ≠ '\n') :
    splitChar '\n'
      (pyStrip ('\n' :: (mkDirectiveLine p1 i1 ++ '\n' :: (junk ++ '\n' :: mkDirectiveLine p2 i2))))
      = [mkDirectiveLine p1 i1, junk, mkDirectiveLine p2 i2] := by
  rw [pyStrip_cons_space '\n' _ (by decide)]
  have hstrip :
      pyStrip (mkDirectiveLine p1 i1 ++ '\n' :: (junk ++ '\n' :: mkDirectiveLine p2 i2))
        = mkDirectiveLine p1 i1 ++ '\n' :: (junk ++ '\n' :: mkDirectiveLine p2 i2) := by
    apply pyStrip_eq_self
    · intro a ha
      have : a = '-' := by
        have h2 : (mkDirectiveLine p1 i1 ++ '\n' :: (junk ++ '\n' :: mkDirectiveLine p2 i2)).head? = some '-' := rfl
        rw [h2] at ha
        exact (Option.some_inj.mp ha).symm
      subst this
      decide
    · intro a ha
      rw [getLast?_append_right _ _ (by simp)] at ha
      rw [getLast?_cons_right _ _ (by simp)] at ha
      rw [getLast?_append_right _ _ (by simp)] at ha
      rw [getLast?_cons_right _ _ (mkDirectiveLine_ne_nil p2 i2)] at ha
      rw [getLast?_mkDirectiveLine p2 i2 hi2.1] at ha
      exact hi2.2.2.2 a ha
  rw [hstrip]
  rw [splitChar_append_cons '\n' _ _ (noNl_mkDirectiveLine p1 i1 hp1 hi1)]
  rw [splitChar_append_cons '\n' _ _ hjnl]
  rw [splitChar_of_not_mem '\n' _ (noNl_mkDirectiveLine p2 i2 hp2 hi2)]

/-- Stripping and line-splitting a directive block of exactly two good
lines. -/
theorem lines_block2 (p1 i1 p2 i2 : List Char)
    (hp1 : wfPath p1) (hi1 : wfInstr i1) (hp2 : wfPath p2) (hi2 : wfInstr i2) :
    splitChar '\n'
      (pyStrip ('\n' :: (mkDirectiveLine p1 i1 ++ '\n' :: mkDirectiveLine p2 i2)))
      = [mkDirectiveLine p1 i1, mkDirectiveLine p2 i2] := by
  rw [pyStrip_cons_space '\n' _ (by decide)]
  have hstrip :
      pyStrip (mkDirectiveLine p1 i1 ++ '\n' :: mkDirectiveLine p2 i2)
        = mkDirectiveLine p1 i1 ++ '\n' :: mkDirectiveLine p2 i2 := by
    apply pyStrip_eq_self
    · intro a ha
      have h2 : (mkDirectiveLine p1 i1 ++ '\n' :: mkDirectiveLine p2 i2).head? = some '-' := rfl
      rw [h2] at ha
      have : a = '-' := (Option.some_inj.mp ha).symm
      subst this
      decide
    · intro a ha
      rw [getLast?_append_right _ _ (by simp)] at ha
      rw [getLast?_cons_right _ _ (mkDirectiveLine_ne_nil p2 i2)] at ha
      rw [getLast?_mkDirectiveLine p2 i2 hi2.1] at ha
      exact hi2.2.2.2 a ha
  rw [hstrip]
  rw [splitChar_append_cons '\n' _ _ (noNl_mkDirectiveLine p1 i1 hp1 hi1)]
  rw [splitChar_of_not_mem '\n' _ (noNl_mkDirectiveLine p2 i2 hp2 hi2)]

/-- Extraction on a text whose post-marker region is the three-line block. -/
theorem extract_block3 (title text p1 i1 junk p2 i2 : List Char)
    (hm : containsSub MARKER text = true)
    (ha : afterLastSub MARKER text
      = '\n' :: (mkDirectiveLine p1 i1 ++ '\n' :: (junk ++ '\n' :: mkDirectiveLine p2 i2)))
    (hp1 : wfPath p1) (hi1 : wfInstr i1) (hp2 : wfPath p2) (hi2 : wfInstr i2)
    (hjunk : parseLine title junk = none) (hjnl : ∀ x ∈ junk, x ≠ '\n') :
    extractFileDirectives title text = [(p1, i1), (p2, i2)] := by
  unfold extractFileDirectives
  rw [hm]
  simp only [if_true, ha]
  rw [lines_block3 p1 i1 junk p2 i2 hp1 hi1 hp2 hi2 hjnl]
  simp [List.filterMap_cons, parseLine_mkDirectiveLine title p1 i1 hp1 hi1,
    parseLine_mkDirectiveLine title p2 i2 hp2 hi2, hjunk]

/-- Extraction on a text whose post-marker region is the two-line block. -/
theorem extract_block2 (title text p1 i1 p2 i2 : List Char)
    (hm : containsSub MARKER text = true)
    (ha : afterLastSub MARKER text
      = '\n' :: (mkDirectiveLine p1 i1 ++ '\n' :: mkDirectiveLine p2 i2))
    (hp1 : wfPath p1) (hi1 : wfInstr i1) (hp2 : wfPath p2) (hi2 : wfInstr i2) :
    extractFileDirectives title text = [(p1, i1), (p2, i2)] := by
  unfold extractFileDirectives
  rw [hm]
  simp only [if_true, ha]
  rw [lines_block2 p1 i1 p2 i2 hp1 hi1 hp2 hi2]
  simp [List.filterMap_cons, parseLine_mkDirectiveLine title p1 i1 hp1 hi1,
    parseLine_mkDirectiveLine title p2 i2 hp2 hi2]

/-- Absence of the marker yields no directives. -/
theorem extract_no_marker (title text : List Char)
    (h : containsSub MARKER text = false) :
    extractFileDirectives title text = [] := by
  unfold extractFileDirectives
  rw [h]
  simp

/-! ## Claim C1 -/

/-- C1: The claim states that validate_target_path is true iff the absolute,
symlink-resolved form of the candidate is a strict descendant of TargetRoot
(plus existence, whitelist and size), and in particular false for every path
resolving outside TargetRoot, including escapes via ".." segments.  The code
instead checks containment with Path.absolute(), which performs no
normalization, so the lexical prefix test accepts target/sub/../../evil.py
even though it resolves to a file outside the root; its docstring and
comments ("no escape attempts", "prevent ../ escape attempts") say
otherwise.  This theorem evaluates the code at that failing input:
validation succeeds although the resolved path leaves the root and the
spec-side predicate rejects it. -/
theorem c1_validate_escape_bug :
    validate_target_path fsC rootC badC = true
    ∧ rootC.isPrefixOf (resolveSegs badC) = false
    ∧ validate_spec fsC rootC badC = false := by decide

/-! ## Claim C10 -/

/-- C10 counterexample: for missing.md — a relative path inside TargetRoot
with a whitelisted extension naming a file that does not exist — read_file
returns the AccessDenied-style error, not the NotFound error the claim
requires. -/
theorem c10_counterexample :
    read_file rootC fsC "missing.md" = .err "File access denied - safety check failed"
    ∧ read_file rootC fsC "missing.md" ≠ .err ("File not found: " ++ "missing.md")
    ∧ rootC.isPrefixOf (rootC ++ segsOf "missing.md") = true
    ∧ ALLOWED_EXTENSIONS.contains (pathSuffix (rootC ++ segsOf "missing.md")) = true
    ∧ fsC.existsAt (resolveSegs (rootC ++ segsOf "missing.md")) = false := by decide

/-- C10 amended: for every path naming a nonexistent file, read_file
returns the AccessDenied error ("safety check failed"), because
validate_target_path itself requires existence; the dedicated NotFound
branch of read_file is unreachable for nonexistent files. -/
theorem c10_missing_file_access_denied (root : List String) (fs : FS) (fp : String)
    (hne : fs.existsAt (resolveSegs (root ++ segsOf fp)) = false) :
    read_file root fs fp = .err "File access denied - safety check failed" := by
  have hv : validate_target_path fs root (root ++ segsOf fp) = false := by
    unfold validate_target_path
    rw [hne]
    simp
  simp [read_file, hv]

/-- C10 witness: the amended theorem applied at the concrete missing file. -/
theorem c10_witness :
    read_file rootC fsC "missing.md" = .err "File access denied - safety check failed" :=
  c10_missing_file_access_denied rootC fsC "missing.md" (by decide)

/-! ## Claim C7 -/

/-- C7: On a text containing the FILES_TO_MODIFY: marker whose
post-marker region consists of a well-formed directive line, a line not
matching the directive shape, and a second well-formed directive line,
extraction yields exactly the two directives in source order, skipping the
non-matching line without failing; and on any text without the marker,
extraction yields the empty list. -/
theorem c7_extract_directives (title text tnom p1 i1 junk p2 i2 : List Char)
    (hm : containsSub MARKER text = true)
    (ha : afterLastSub MARKER text
      = '\n' :: (mkDirectiveLine p1 i1 ++ '\n' :: (junk ++ '\n' :: mkDirectiveLine p2 i2)))
    (hp1 : wfPath p1) (hi1 : wfInstr i1) (hp2 : wfPath p2) (hi2 : wfInstr i2)
    (hjunk : parseLine title junk = none) (hjnl : ∀ x ∈ junk, x ≠ '\n')
    (hnom : containsSub MARKER tnom = false) :
    extractFileDirectives title text = [(p1, i1), (p2, i2)]
    ∧ extractFileDirectives title tnom = [] :=
  ⟨extract_block3 title text p1 i1 junk p2 i2 hm ha hp1 hi1 hp2 hi2 hjunk hjnl,
   extract_no_marker title tnom hnom⟩

/-- C7 witness: a concrete response with the marker, two directive lines
and one junk line between them, and a concrete response without the
marker. -/
theorem c7_witness :
    extractFileDirectives ("T").data respTwoC.data
      = [(("app.py").data, ("fix bug").data), (("readme.md").data, ("update docs").data)]
    ∧ extractFileDirectives ("T").data respNoMarkerC.data = [] :=
  c7_extract_directives ("T").data respTwoC.data respNoMarkerC.data
    ("app.py").data ("fix bug").data ("skip me").data ("readme.md").data ("update docs").data
    (by decide) (by decide) (by decide) (by decide) (by decide) (by decide)
    (by decide) (by decide) (by decide)

/-! ## Claim C8 -/

/-- C8 counterexample: on a directive block listing app.py twice with
different instructions, extraction yields both directives — the earlier
instruction "add one" is still present in the result, so the extracted
directives do not reflect only the last instruction for that path. -/
theorem c8_counterexample :
    extractFileDirectives ("T").data respDupC.data
      = [(("app.py").data, ("add one").data), (("app.py").data, ("add two").data)]
    ∧ (("app.py").data, ("add one").data) ∈ extractFileDirectives ("T").data respDupC.data
    ∧ ("add one").data ≠ ("add two").data := by decide

/-- C8 amended: when the same path appears in two directive lines, the
later instruction does not win; instead one directive is extracted per
line, in source order, and ai-resolve's creation loop turns each directive
into its own ProposedChange row (so two pending rows target the same
path, one per instruction). -/
theorem c8_duplicate_path_both_kept
    (title text p i1 i2 : List Char)
    (orc : GenOracles) (root : List String) (w : World) (tid : Nat)
    (ttl : String) (files : List String) (orig prop1 prop2 : String)
    (hm : containsSub MARKER text = true)
    (ha : afterLastSub MARKER text
      = '\n' :: (mkDirectiveLine p i1 ++ '\n' :: mkDirectiveLine p i2))
    (hp : wfPath p) (hi1 : wfInstr i1) (hi2 : wfInstr i2)
    (hmem : files.contains (String.mk p) = true)
    (hread : read_file root w.fs (String.mk p) = .ok orig)
    (hg1 : orc.proposeGen (String.mk p) (ttl ++ ": " ++ String.mk i1) = some prop1)
    (hg2 : orc.proposeGen (String.mk p) (ttl ++ ": " ++ String.mk i2) = some prop2) :
    extractFileDirectives title text = [(p, i1), (p, i2)]
    ∧ (createChangesForDirectives orc root tid ttl files w [(p, i1), (p, i2)]).1
        = [(String.mk p, w.db.nextChangeId), (String.mk p, w.db.nextChangeId + 1)]
    ∧ (createChangesForDirectives orc root tid ttl files w [(p, i1), (p, i2)]).2.db.changes
        = w.db.changes
          ++ [{ id := w.db.nextChangeId, ticket_id := some tid, file_path := String.mk p,
                original_content := orig, proposed_content := prop1,
                change_description := ttl ++ ": " ++ String.mk i1, status := "pending" },
              { id := w.db.nextChangeId + 1, ticket_id := some tid, file_path := String.mk p,
                original_content := orig, proposed_content := prop2,
                change_description := ttl ++ ": " ++ String.mk i2, status := "pending" }] := by
  refine ⟨extract_block2 title text p i1 p i2 hm ha hp hi1 hp hi2, ?_, ?_⟩
  all_goals
    simp only [createChangesForDirectives, List.foldl, directiveStep, hmem, if_pos]
    simp only [propose_file_change, hread, hg1, create_proposed_change]
    simp only [hg2]
    simp [List.append_assoc]

/-- C8 witness: the duplicate-path block applied on the concrete world,
with both proposal calls succeeding. -/
theorem c8_witness :
    extractFileDirectives ("T").data respDupC.data
      = [(("app.py").data, ("add one").data), (("app.py").data, ("add two").data)]
    ∧ (createChangesForDirectives orcProp rootC 1 "T" ["app.py"] wC
        [(("app.py").data, ("add one").data), (("app.py").data, ("add two").data)]).1
        = [("app.py", wC.db.nextChangeId), ("app.py", wC.db.nextChangeId + 1)]
    ∧ (createChangesForDirectives orcProp rootC 1 "T" ["app.py"] wC
        [(("app.py").data, ("add one").data), (("app.py").data, ("add two").data)]).2.db.changes
        = wC.db.changes
          ++ [{ id := wC.db.nextChangeId, ticket_id := some 1, file_path := "app.py",
                original_content := "x=1", proposed_content := "new content",
                change_description := "T" ++ ": " ++ "add one", status := "pending" },
              { id := wC.db.nextChangeId + 1, ticket_id := some 1, file_path := "app.py",
                original_content := "x=1", proposed_content := "new content",
                change_description := "T" ++ ": " ++ "add two", status := "pending" }] :=
  c8_duplicate_path_both_kept ("T").data respDupC.data
    ("app.py").data ("add one").data ("add two").data
    orcProp rootC wC 1 "T" ["app.py"] "x=1" "new content" "new content"
    (by decide) (by decide) (by decide) (by decide) (by decide)
    (by decide) (by decide) (by decide) (by decide)

/-! ## Helper lemmas: proposed-change rows under status updates -/

theorem find?_map_status (l : List Change) (cid : Nat) (st : String) :
    (l.map (fun c => if c.id = cid then { c with status := st } else c)).find?
        (fun c => c.id == cid)
      = (l.find? (fun c => c.id == cid)).map (fun c => { c with status := st }) := by
  induction l with
  | nil => rfl
  | cons a t ih =>
    by_cases h : a.id = cid
    · simp [List.find?_cons, h]
    · simp [List.find?_cons, h, ih]

theorem get_proposed_change_update (db : DB) (cid : Nat) (st : String) :
    get_proposed_change (update_proposed_change_status db cid st) cid
      = (get_proposed_change db cid).map (fun c => { c with status := st }) :=
  find?_map_status db.changes cid st

/-! ## Claim C2 -/

/-- C2: Resolving a pending ProposedChange as accepted (with the guard
passing and the write succeeding, the only case in which the resolution
goes through) writes proposed_content verbatim to the file, flips the row
to accepted, and a second resolve call on the same id — as accept or as
reject — returns the StateConflict error naming the current status and
leaves the entire state untouched (so no additional write occurs). -/
theorem c2_accept_then_conflict (root : List String) (w : World) (cid : Nat) (c : Change)
    (hget : get_proposed_change w.db cid = some c)
    (hp : c.status = "pending")
    (hv : validate_target_path w.fs root (root ++ segsOf c.file_path) = true)
    (hw : writeRaises w (resolveSegs (root ++ segsOf c.file_path)) = false) :
    (apply_proposed_change root w cid).1 = .applied c.file_path
    ∧ (apply_proposed_change root w cid).2.fs.lookup (resolveSegs (root ++ segsOf c.file_path))
        = some c.proposed_content
    ∧ get_proposed_change (apply_proposed_change root w cid).2.db cid
        = some { c with status := "accepted" }
    ∧ apply_proposed_change root (apply_proposed_change root w cid).2 cid
        = (.err "Change already accepted", (apply_proposed_change root w cid).2)
    ∧ reject_proposed_change (apply_proposed_change root w cid).2 cid
        = (.err "Change already accepted", (apply_proposed_change root w cid).2) := by
  have happly : apply_proposed_change root w cid
      = (.applied c.file_path,
         { w with
            db := record_change (update_proposed_change_status w.db cid "accepted") none
                    [c.file_path] "modify" c.change_description c.proposed_content c.ticket_id
            fs := w.fs.writeAt (resolveSegs (root ++ segsOf c.file_path)) c.proposed_content
            writeLog := w.writeLog ++ [(c.file_path, c.proposed_content)] }) := by
    unfold apply_proposed_change
    rw [hget]
    simp [hp, hv, hw]
  have hget2 : get_proposed_change (apply_proposed_change root w cid).2.db cid
      = some { c with status := "accepted" } := by
    rw [happly]
    show get_proposed_change (update_proposed_change_status w.db cid "accepted") cid = _
    rw [get_proposed_change_update, hget]
    rfl
  refine ⟨by rw [happly], ?_, hget2, ?_, ?_⟩
  · rw [happly]
    simp [FS.writeAt]
  · rw [happly] at hget2 ⊢
    unfold apply_proposed_change
    rw [hget2]
    simp
  · rw [happly] at hget2 ⊢
    unfold reject_proposed_change
    rw [hget2]
    simp

/-- C2 witness: the pending change on readme.md in the concrete world. -/
theorem c2_witness :
    (apply_proposed_change rootC wC 1).1 = .applied "readme.md"
    ∧ (apply_proposed_change rootC wC 1).2.fs.lookup (resolveSegs (rootC ++ segsOf "readme.md"))
        = some "hello world"
    ∧ get_proposed_change (apply_proposed_change rootC wC 1).2.db 1
        = some { changeC with status := "accepted" }
    ∧ apply_proposed_change rootC (apply_proposed_change rootC wC 1).2 1
        = (.err "Change already accepted", (apply_proposed_change rootC wC 1).2)
    ∧ reject_proposed_change (apply_proposed_change rootC wC 1).2 1
        = (.err "Change already accepted", (apply_proposed_change rootC wC 1).2) :=
  c2_accept_then_conflict rootC wC 1 changeC (by decide) (by decide) (by decide) (by decide)

/-! ## Claim C3 -/

/-- C3: On accepting a pending ProposedChange the guard is re-evaluated
against the file system as it is at transition time (the hypotheses
constrain only the current state, not the state at creation), and the
write precedes the status commit: if the guard rejects, or the write
raises, the call returns an explicit error and the entire state — in
particular the row's pending status — is unchanged. -/
theorem c3_guard_write_failure (root : List String)
    (w1 w2 : World) (cid1 cid2 : Nat) (c1 c2 : Change)
    (hget1 : get_proposed_change w1.db cid1 = some c1)
    (hp1 : c1.status = "pending")
    (hv1 : validate_target_path w1.fs root (root ++ segsOf c1.file_path) = false)
    (hget2 : get_proposed_change w2.db cid2 = some c2)
    (hp2 : c2.status = "pending")
    (hv2 : validate_target_path w2.fs root (root ++ segsOf c2.file_path) = true)
    (hw2 : writeRaises w2 (resolveSegs (root ++ segsOf c2.file_path)) = true) :
    apply_proposed_change root w1 cid1 = (.err "Safety check failed on write", w1)
    ∧ apply_proposed_change root w2 cid2 = (.err "write failed", w2) := by
  constructor
  · unfold apply_proposed_change
    rw [hget1]
    simp [hp1, hv1]
  · unfold apply_proposed_change
    rw [hget2]
    simp [hp2, hv2, hw2]

/-- C3 witness: a pending change whose target no longer exists (guard
rejects at transition time), and a pending valid change whose write
raises. -/
theorem c3_witness :
    apply_proposed_change rootC wC 2 = (.err "Safety check failed on write", wC)
    ∧ apply_proposed_change rootC wCF 3 = (.err "write failed", wCF) :=
  c3_guard_write_failure rootC wC wCF 2 3 changeMissingC changeAppC
    (by decide) (by decide) (by decide) (by decide) (by decide) (by decide) (by decide)

/-! ## Claim C4 -/

/-- C4: Among the ProposedChange operations only the accepted resolution
touches the filesystem: proposing a change (which creates the row) leaves
the file system and the write log untouched whatever the proposed content,
the created row is stored in pending state, and rejecting a change leaves
the file system and the write log untouched. -/
theorem c4_create_reject_no_write :
    (∀ (orc : GenOracles) (root : List String) (w : World) (fp instr : String)
        (tid : Option Nat),
      (propose_file_change orc root w fp instr tid).2.fs = w.fs
      ∧ (propose_file_change orc root w fp instr tid).2.writeLog = w.writeLog)
    ∧ (∀ (db : DB) (fp oc pc cd : String) (tid : Option Nat),
        ∃ row, (create_proposed_change db fp oc pc cd tid).2.changes = db.changes ++ [row]
          ∧ row.status = "pending" ∧ row.proposed_content = pc ∧ row.file_path = fp)
    ∧ (∀ (w : World) (cid : Nat),
        (reject_proposed_change w cid).2.fs = w.fs
        ∧ (reject_proposed_change w cid).2.writeLog = w.writeLog) := by
  refine ⟨?_, ?_, ?_⟩
  · intro orc root w fp instr tid
    unfold propose_file_change
    cases read_file root w.fs fp with
    | err e => exact ⟨rfl, rfl⟩
    | ok oc =>
      cases orc.proposeGen fp instr with
      | none => exact ⟨rfl, rfl⟩
      | some pc => exact ⟨rfl, rfl⟩
  · intro db fp oc pc cd tid
    exact ⟨_, rfl, rfl, rfl, rfl⟩
  · intro w cid
    unfold reject_proposed_change
    cases get_proposed_change w.db cid with
    | none => exact ⟨rfl, rfl⟩
    | some c =>
      by_cases h : c.status = "pending"
      · simp [h]
      · simp [h]

/-! ## Claim C6 -/

/-- C6: If file selection yields nothing, or the main generation call
fails, ai-resolve returns an explicit error together with the entire
state unchanged — in particular the ticket row (its ai_suggestion,
ai_suggestion_status and ai_files_analyzed fields) is exactly as before
and no ProposedChange row is created. -/
theorem c6_failure_no_partial_state (orc : GenOracles) (root : List String)
    (w : World) (tid : Nat) (t : Ticket)
    (hfind : get_ticket_by_id w.db tid = some t)
    (hfail : orc.selectResult = [] ∨ orc.genResult = none) :
    ∃ m, api_ticket_ai_resolve orc root w tid = (.err m, w)
      ∧ get_ticket_by_id (api_ticket_ai_resolve orc root w tid).2.db tid = some t
      ∧ (api_ticket_ai_resolve orc root w tid).2.db.changes = w.db.changes := by
  have hproc : ∃ m, process_task_two_step orc root w t.title = (.err m, w) := by
    unfold process_task_two_step
    rcases hfail with h | h
    · exact ⟨"No relevant files found for this task", by simp [h]⟩
    · by_cases hs : orc.selectResult = []
      · exact ⟨"No relevant files found for this task", by simp [hs]⟩
      · by_cases hc : fileContentsOf orc root w.fs = []
        · exact ⟨"Could not read any of the relevant files", by simp [hs, hc]⟩
        · exact ⟨"generation failed", by simp [hs, hc, h]⟩
  obtain ⟨m, hm⟩ := hproc
  have hres : api_ticket_ai_resolve orc root w tid = (.err m, w) := by
    unfold api_ticket_ai_resolve
    rw [hfind]
    simp [hm]
  exact ⟨m, hres, by rw [hres]; exact hfind, by rw [hres]⟩

/-- C6 witness: empty file selection on the concrete world. -/
theorem c6_witness :
    ∃ m, api_ticket_ai_resolve orc6 rootC wC 1 = (.err m, wC)
      ∧ get_ticket_by_id (api_ticket_ai_resolve orc6 rootC wC 1).2.db 1 = some ticketC
      ∧ (api_ticket_ai_resolve orc6 rootC wC 1).2.db.changes = wC.db.changes :=
  c6_failure_no_partial_state orc6 rootC wC 1 ticketC (by decide) (Or.inl (by decide))

/-! ## Helper lemmas: ticket rows under updates, the two-step success path,
and the directive-creation loop -/

theorem find?_map_ticket (l : List Ticket) (tid : Nat) (f : Ticket → Ticket)
    (hid : ∀ t, (f t).id = t.id) :
    (l.map (fun t => if t.id = tid then f t else t)).find? (fun t => t.id == tid)
      = (l.find? (fun t => t.id == tid)).map f := by
  induction l with
  | nil => rfl
  | cons a t ih =>
    by_cases h : a.id = tid
    · simp [List.find?_cons, h, hid]
    · simp [List.find?_cons, h, ih]

theorem get_ticket_eq_of_tickets (db1 db2 : DB) (tid : Nat)
    (h : db1.tickets = db2.tickets) :
    get_ticket_by_id db1 tid = get_ticket_by_id db2 tid := by
  unfold get_ticket_by_id
  rw [h]

theorem get_ticket_suggestion_update (db : DB) (tid : Nat) (s : String)
    (f : List String) :
    get_ticket_by_id (update_ticket_ai_suggestion db tid s f) tid
      = (get_ticket_by_id db tid).map
          (fun t => { t with ai_suggestion := some s, ai_files_analyzed := f, ai_suggestion_status := some "pending" }) :=
  find?_map_ticket db.tickets tid _ (fun _ => rfl)

theorem get_ticket_status_update (db : DB) (tid : Nat) (st : String) :
    get_ticket_by_id (update_ticket_ai_status db tid st) tid
      = (get_ticket_by_id db tid).map
          (fun t =>
            if st = "accepted" then
              { t with ai_suggestion_status := some st, status := "resolved" }
            else { t with ai_suggestion_status := some st }) :=
  find?_map_ticket db.tickets tid _ (fun t => by by_cases h : st = "accepted" <;> simp [h])

/-- The success path of process_task_two_step. -/
theorem process_ok (orc : GenOracles) (root : List String) (w : World)
    (task resp : String)
    (hsel : orc.selectResult ≠ [])
    (hgen : orc.genResult = some resp)
    (hread : fileContentsOf orc root w.fs ≠ []) :
    process_task_two_step orc root w task
      = (.ok (analyzedFiles orc root w.fs) resp,
         { w with
            db := save_ai_context (record_change w.db none (analyzedFiles orc root w.fs) "analyze" task resp none) resp }) := by
  unfold process_task_two_step analyzedFiles
  simp [hsel, hread, hgen]

/-- The directive-creation loop leaves tickets untouched and only appends
rows whose path is among the analyzed files, tied to the ticket, pending. -/
theorem createChanges_fold_inv (orc : GenOracles) (root : List String) (tid : Nat)
    (title : String) (files : List String) :
    ∀ (dirs : List (List Char × List Char)) (acc : List (String × Nat) × World),
      ((dirs.foldl (directiveStep orc root tid title files) acc).2.db.tickets
          = acc.2.db.tickets)
      ∧ ∃ rows, (dirs.foldl (directiveStep orc root tid title files) acc).2.db.changes
            = acc.2.db.changes ++ rows
          ∧ ∀ c ∈ rows, files.contains c.file_path = true ∧ c.ticket_id = some tid
              ∧ c.status = "pending" := by
  intro dirs
  induction dirs with
  | nil =>
    intro acc
    exact ⟨rfl, [], by simp, by simp⟩
  | cons d rest ih =>
    intro acc
    rw [List.foldl_cons]
    have hstep : (directiveStep orc root tid title files acc d).2.db.tickets
          = acc.2.db.tickets
        ∧ ∃ rows0, (directiveStep orc root tid title files acc d).2.db.changes
              = acc.2.db.changes ++ rows0
            ∧ ∀ c ∈ rows0, files.contains c.file_path = true ∧ c.ticket_id = some tid
                ∧ c.status = "pending" := by
      unfold directiveStep
      by_cases hmem : files.contains (String.mk d.1) = true
      · simp only [hmem, if_true]
        unfold propose_file_change
        cases hr : read_file root acc.2.fs (String.mk d.1) with
        | err e => exact ⟨rfl, [], by simp, by simp⟩
        | ok oc =>
          cases hg : orc.proposeGen (String.mk d.1) (title ++ ": " ++ String.mk d.2) with
          | none => exact ⟨rfl, [], by simp, by simp⟩
          | some pc =>
            refine ⟨rfl, [_], rfl, ?_⟩
            intro c hc
            simp only [List.mem_singleton] at hc
            subst hc
            exact ⟨hmem, rfl, rfl⟩
      · simp only [hmem]
        exact ⟨by simp, [], by simp, by simp⟩
    obtain ⟨ht0, rows0, hc0, hp0⟩ := hstep
    obtain ⟨ht1, rows1, hc1, hp1⟩ := ih (directiveStep orc root tid title files acc d)
    refine ⟨by rw [ht1, ht0], rows0 ++ rows1, ?_, ?_⟩
    · rw [hc1, hc0, List.append_assoc]
    · intro c hc
      rcases List.mem_append.mp hc with h | h
      · exact hp0 c h
      · exact hp1 c h

/-! ## Claim C9 -/

/-- C9 counterexample: the selector picks two files, of which only
readme.md can be read; after a successful ai-resolve the ticket's
ai_files_analyzed is the readable subset, not the selected set, so the
claim that it equals the set selected by the two-step relevance filter
fails at this input. -/
theorem c9_counterexample :
    (get_ticket_by_id (api_ticket_ai_resolve orc9 rootC wC 1).2.db 1).map
        (fun t => t.ai_files_analyzed) = some ["readme.md"]
    ∧ orc9.selectResult = ["readme.md", "missing.md"]
    ∧ (get_ticket_by_id (api_ticket_ai_resolve orc9 rootC wC 1).2.db 1).map
        (fun t => t.ai_files_analyzed) ≠ some orc9.selectResult := by decide

/-- C9 amended: after a successful ai-resolve the ticket holds the raw
generated response as ai_suggestion, its ai_suggestion_status is pending,
and ai_files_analyzed equals the subset of the selected files that were
successfully read (the files the two-step process actually analyzed); and
every ProposedChange row beyond the pre-existing ones has its path within
that analyzed set, is tied to the ticket, and is pending. -/
theorem c9_resolve_persists (orc : GenOracles) (root : List String) (w : World)
    (tid : Nat) (t : Ticket) (resp : String)
    (hfind : get_ticket_by_id w.db tid = some t)
    (hsel : orc.selectResult ≠ [])
    (hgen : orc.genResult = some resp)
    (hread : fileContentsOf orc root w.fs ≠ []) :
    (∃ pcs, (api_ticket_ai_resolve orc root w tid).1
        = .ok resp (analyzedFiles orc root w.fs) pcs)
    ∧ get_ticket_by_id (api_ticket_ai_resolve orc root w tid).2.db tid
        = some { t with ai_suggestion := some resp, ai_suggestion_status := some "pending", ai_files_analyzed := analyzedFiles orc root w.fs }
    ∧ ∀ c ∈ (api_ticket_ai_resolve orc root w tid).2.db.changes,
        c ∈ w.db.changes
        ∨ ((analyzedFiles orc root w.fs).contains c.file_path = true
            ∧ c.ticket_id = some tid ∧ c.status = "pending") := by
  have hproc := process_ok orc root w t.title resp hsel hgen hread
  have hroute : api_ticket_ai_resolve orc root w tid
      = (let w1 : World :=
          { w with
             db := save_ai_context (record_change w.db none (analyzedFiles orc root w.fs) "analyze" t.title resp none) resp };
         let w2 : World :=
          { w1 with
             db := update_ticket_ai_suggestion w1.db tid resp (analyzedFiles orc root w.fs) };
         let r := createChangesForDirectives orc root tid t.title
           (analyzedFiles orc root w.fs) w2 (extractFileDirectives t.title.data resp.data);
         (ResolveOut.ok resp (analyzedFiles orc root w.fs) r.1, r.2)) := by
    unfold api_ticket_ai_resolve
    rw [hfind]
    simp only [hproc]
  rw [hroute]
  simp only
  obtain ⟨htk, rows, hch, hpr⟩ :=
    createChanges_fold_inv orc root tid t.title (analyzedFiles orc root w.fs)
      (extractFileDirectives t.title.data resp.data)
      ([], { w with
              db := update_ticket_ai_suggestion
                (save_ai_context (record_change w.db none (analyzedFiles orc root w.fs) "analyze" t.title resp none) resp)
                tid resp (analyzedFiles orc root w.fs) })
  refine ⟨⟨_, rfl⟩, ?_, ?_⟩
  · unfold createChangesForDirectives
    rw [get_ticket_eq_of_tickets _ _ tid htk]
    show get_ticket_by_id (update_ticket_ai_suggestion _ tid resp _) tid = _
    rw [get_ticket_suggestion_update]
    have : get_ticket_by_id
        (save_ai_context (record_change w.db none (analyzedFiles orc root w.fs) "analyze" t.title resp none) resp) tid
        = get_ticket_by_id w.db tid :=
      get_ticket_eq_of_tickets _ _ tid rfl
    rw [this, hfind]
    rfl
  · intro c hc
    unfold createChangesForDirectives at hc
    rw [hch] at hc
    rcases List.mem_append.mp hc with h | h
    · left
      exact h
    · right
      exact hpr c h

/-- C9 witness: the concrete run in which readme.md is readable,
missing.md is not, and the response carries one directive. -/
theorem c9_witness :
    (∃ pcs, (api_ticket_ai_resolve orc9b rootC wC 1).1
        = .ok "FILES_TO_MODIFY:\n- readme.md: update docs" (analyzedFiles orc9b rootC wC.fs) pcs)
    ∧ get_ticket_by_id (api_ticket_ai_resolve orc9b rootC wC 1).2.db 1
        = some { ticketC with ai_suggestion := some "FILES_TO_MODIFY:\n- readme.md: update docs", ai_suggestion_status := some "pending", ai_files_analyzed := analyzedFiles orc9b rootC wC.fs }
    ∧ ∀ c ∈ (api_ticket_ai_resolve orc9b rootC wC 1).2.db.changes,
        c ∈ wC.db.changes
        ∨ ((analyzedFiles orc9b rootC wC.fs).contains c.file_path = true
            ∧ c.ticket_id = some 1 ∧ c.status = "pending") :=
  c9_resolve_persists orc9b rootC wC 1 ticketC "FILES_TO_MODIFY:\n- readme.md: update docs"
    (by decide) (by decide) (by decide) (by decide)

/-! ## Helper lemmas: the accept loop -/

theorem map_changeKey_update (l : List Change) (cid : Nat) (st : String) :
    (l.map (fun c => if c.id = cid then { c with status := st } else c)).map changeKey
      = l.map changeKey := by
  rw [List.map_map]
  apply List.map_congr_left
  intro a _
  by_cases h : a.id = cid <;> simp [changeKey, h]

/-- Every apply call either fails returning the state unchanged, or
applies the row fetched for the id: one write of its proposed content,
logged, with the row flipped to accepted and tickets untouched. -/
theorem apply_classify (root : List String) (w : World) (cid : Nat) :
    (∃ m, apply_proposed_change root w cid = (.err m, w))
    ∨ (∃ c, get_proposed_change w.db cid = some c
        ∧ apply_proposed_change root w cid
            = (.applied c.file_path,
               { w with
                  db := record_change (update_proposed_change_status w.db cid "accepted") none
                          [c.file_path] "modify" c.change_description c.proposed_content c.ticket_id
                  fs := w.fs.writeAt (resolveSegs (root ++ segsOf c.file_path)) c.proposed_content
                  writeLog := w.writeLog ++ [(c.file_path, c.proposed_content)] })) := by
  unfold apply_proposed_change
  cases hget : get_proposed_change w.db cid with
  | none => exact Or.inl ⟨"Proposed change not found", rfl⟩
  | some c =>
    by_cases hs : c.status = "pending"
    · cases hv : validate_target_path w.fs root (root ++ segsOf c.file_path) with
      | false => exact Or.inl ⟨"Safety check failed on write", by simp [hs, hv]⟩
      | true =>
        cases hw : writeRaises w (resolveSegs (root ++ segsOf c.file_path)) with
        | true => exact Or.inl ⟨"write failed", by simp [hs, hv, hw]⟩
        | false => exact Or.inr ⟨c, rfl, by simp [hs, hv, hw]⟩
    · exact Or.inl ⟨"Change already " ++ c.status, by simp [hs]⟩

theorem find_key_eq (orig l : List Change) (c c' : Change)
    (hkeys : l.map changeKey = orig.map changeKey)
    (hnodup : (orig.map (fun x => x.id)).Nodup)
    (hc : c ∈ orig)
    (hfind : l.find? (fun x => x.id == c.id) = some c') :
    changeKey c' = changeKey c := by
  have hmem : c' ∈ l := List.mem_of_find?_eq_some hfind
  have hid : c'.id = c.id := by
    have h2 := List.find?_some hfind
    simpa using h2
  have hkmem : changeKey c' ∈ orig.map changeKey := by
    rw [← hkeys]
    exact List.mem_map_of_mem changeKey hmem
  obtain ⟨d, hd, hdk⟩ := List.mem_map.mp hkmem
  have hdid : d.id = c.id := by
    have h3 : (changeKey d).1 = (changeKey c').1 := by rw [hdk]
    simpa [changeKey, hid] using h3
  have hdc : d = c :=
    List.inj_on_of_nodup_map hnodup hd hc (by simpa using hdid)
  rw [← hdk, hdc]

/-- The accept loop: the returned list is exactly the first components of
the new write-log entries (the files actually written); tickets and row
keys are untouched. -/
theorem applyAll_spec (root : List String) (orig : List Change)
    (hnodup : (orig.map (fun c => c.id)).Nodup) :
    ∀ (cs : List Change) (w : World),
      (∀ c ∈ cs, c ∈ orig) →
      w.db.changes.map changeKey = orig.map changeKey →
      ∃ nw, (applyAll root cs w).2.writeLog = w.writeLog ++ nw
        ∧ (applyAll root cs w).1 = nw.map Prod.fst
        ∧ (applyAll root cs w).2.db.tickets = w.db.tickets
        ∧ (applyAll root cs w).2.db.changes.map changeKey = orig.map changeKey := by
  intro cs
  induction cs with
  | nil =>
    intro w _ hkeys
    exact ⟨[], by simp [applyAll], by simp [applyAll], rfl, hkeys⟩
  | cons c rest ih =>
    intro w hsub hkeys
    by_cases hs : c.status = "pending"
    · rcases apply_classify root w c.id with ⟨m, hm⟩ | ⟨c', hget', hm⟩
      · have heq : applyAll root (c :: rest) w = applyAll root rest w := by
          simp [applyAll, hs, hm]
        rw [heq]
        exact ih w (fun x hx => hsub x (List.mem_cons_of_mem c hx)) hkeys
      · have hkey_eq : changeKey c' = changeKey c :=
          find_key_eq orig w.db.changes c c' hkeys hnodup (hsub c (List.mem_cons_self c rest)) hget'
        have hfp : c'.file_path = c.file_path := congrArg (fun k => k.2.1) hkey_eq
        set wS : World :=
          { w with
             db := record_change (update_proposed_change_status w.db c.id "accepted") none
                     [c'.file_path] "modify" c'.change_description c'.proposed_content c'.ticket_id
             fs := w.fs.writeAt (resolveSegs (root ++ segsOf c'.file_path)) c'.proposed_content
             writeLog := w.writeLog ++ [(c'.file_path, c'.proposed_content)] } with hwS
        have heq : applyAll root (c :: rest) w
            = (c.file_path :: (applyAll root rest wS).1, (applyAll root rest wS).2) := by
          simp [applyAll, hs, hm]
        have hkeys2 : wS.db.changes.map changeKey = orig.map changeKey := by
          rw [hwS]
          exact (map_changeKey_update w.db.changes c.id "accepted").trans hkeys
        obtain ⟨nw, h1, h2, h3, h4⟩ :=
          ih wS (fun x hx => hsub x (List.mem_cons_of_mem c hx)) hkeys2
        rw [heq]
        refine ⟨(c'.file_path, c'.proposed_content) :: nw, ?_, ?_, ?_, h4⟩
        · rw [h1, hwS]
          simp [List.append_assoc]
        · rw [h2, hfp]
          rfl
        · rw [h3, hwS]
          rfl
    · have heq : applyAll root (c :: rest) w = applyAll root rest w := by
        simp [applyAll, hs]
      rw [heq]
      exact ih w (fun x hx => hsub x (List.mem_cons_of_mem c hx)) hkeys

/-! ## Claim C5 -/

/-- C5: The ticket-level accept action iterates all proposed changes
fetched for the ticket, applying each pending one; regardless of the
individual write outcomes it sets the ticket's ai_suggestion_status to
accepted and its status to resolved, and the returned list is exactly the
files actually written — the first components of the write-log entries
appended by the run, one per successful apply.  A failed apply contributes
nothing and does not halt the loop: the last conjunct shows that the loop
on a change whose application fails continues identically on the remaining
changes.  The id-uniqueness hypothesis is the proposed_changes primary-key
invariant. -/
theorem c5_ticket_accept (orc : GenOracles) (root : List String) (w : World)
    (tid : Nat) (t : Ticket) (message : String)
    (w0 : World) (cfail : Change) (rest : List Change) (mfail : String)
    (hfind : get_ticket_by_id w.db tid = some t)
    (hnodup : (w.db.changes.map (fun c => c.id)).Nodup)
    (hfail : apply_proposed_change root w0 cfail.id = (.err mfail, w0)) :
    (∃ nw, (api_ticket_ai_action orc root w tid "accept" message).1
        = .acceptOk (nw.map Prod.fst)
      ∧ (api_ticket_ai_action orc root w tid "accept" message).2.writeLog
          = w.writeLog ++ nw
      ∧ get_ticket_by_id (api_ticket_ai_action orc root w tid "accept" message).2.db tid
          = some { t with ai_suggestion_status := some "accepted", status := "resolved" })
    ∧ applyAll root (cfail :: rest) w0 = applyAll root rest w0 := by
  constructor
  · have hsub : ∀ c ∈ get_proposed_changes_for_ticket w.db tid, c ∈ w.db.changes := by
      intro c hc
      unfold get_proposed_changes_for_ticket at hc
      exact List.mem_of_mem_filter (List.mem_reverse.mp hc)
    obtain ⟨nw, h1, h2, h3, _⟩ :=
      applyAll_spec root w.db.changes hnodup (get_proposed_changes_for_ticket w.db tid) w
        hsub rfl
    have hroute : api_ticket_ai_action orc root w tid "accept" message
        = (.acceptOk (applyAll root (get_proposed_changes_for_ticket w.db tid) w).1,
           { (applyAll root (get_proposed_changes_for_ticket w.db tid) w).2 with
              db := update_ticket_ai_status
                (applyAll root (get_proposed_changes_for_ticket w.db tid) w).2.db tid
                "accepted" }) := by
      unfold api_ticket_ai_action
      rw [hfind]
      simp
    refine ⟨nw, ?_, ?_, ?_⟩
    · rw [hroute]
      exact congrArg ActionOut.acceptOk h2
    · rw [hroute]
      exact h1
    · rw [hroute]
      show get_ticket_by_id (update_ticket_ai_status _ tid "accepted") tid = _
      rw [get_ticket_status_update]
      rw [get_ticket_eq_of_tickets _ w.db tid h3, hfind]
      simp
  · by_cases hs : cfail.status = "pending"
    · simp [applyAll, hs, hfail]
    · simp [applyAll, hs]

/-- C5 witness: the concrete ticket whose pending changes are processed in
created-DESC order — app.py is written, missing.md fails its guard without
halting the loop, readme.md is written — the ticket ends accepted and
resolved, and the returned files are exactly the two written. -/
theorem c5_witness :
    (∃ nw, (api_ticket_ai_action orc6 rootC wC 1 "accept" "").1
        = .acceptOk (nw.map Prod.fst)
      ∧ (api_ticket_ai_action orc6 rootC wC 1 "accept" "").2.writeLog
          = wC.writeLog ++ nw
      ∧ get_ticket_by_id (api_ticket_ai_action orc6 rootC wC 1 "accept" "").2.db 1
          = some { ticketC with ai_suggestion_status := some "accepted", status := "resolved" })
    ∧ applyAll rootC (changeMissingC :: [changeC]) wC = applyAll rootC [changeC] wC :=
  c5_ticket_accept orc6 rootC wC 1 ticketC "" wC changeMissingC [changeC]
    "Safety check failed on write" (by decide) (by decide) rfl
